import Mathlib

/-!
Verification of the pgoutput-decoder repository.

The development shallowly embeds the Rust sources:

* `src/pgoutput/decoder.rs` — the binary pgoutput decoder (`PgOutputDecoder`),
  its relation cache, and the byte-reading helpers `read_cstring` and
  `read_tuple_data`;
* `src/replication.rs` — the event-conversion logic of `convert_message`
  and one iteration of the `__anext__` receive loop;
* `src/utils.rs` — `ExponentialBackoff`.

Bytes are modelled as `List Nat` (each element a byte value).  The `bytes`
crate primitives (`get_u8`, `get_u16`, `get_u32`, `get_u64`, `get_i32`,
`get_i64`, `copy_to_slice`) abort the process when the buffer holds fewer
bytes than requested; that abort is modelled by the distinguished
`RdRes.panicked` outcome, kept separate from the `io::Error` results the
Rust code returns (`RdRes.err`).
-/

/-- Byte sequences: each element is one byte (0..255).  The decoder never
produces bytes, only consumes them, so no modular arithmetic is needed. -/
abbrev Bytes := List Nat

/-- Big-endian value of a byte sequence, as the `bytes` crate computes it
for `get_u16`/`get_u32`/`get_u64`. -/
def beVal (bs : Bytes) : Nat :=
  bs.foldl (fun a b => a * 256 + b) 0

/-- Two's-complement reading of a `w`-bit unsigned value as a signed
integer, used for `get_i32`/`get_i64`. -/
def toSigned (w : Nat) (v : Nat) : Int :=
  if v < 2 ^ (w - 1) then (v : Int) else (v : Int) - 2 ^ w

/-- Errors returned by the decoder (`io::Error` values in `decoder.rs`),
one constructor per `Err` site:
`emptyMessage` = "Empty message" (decode), `unknownTag` = "Unknown message
type" (decode), `expectedNewTuple` = "Expected new tuple (N)"
(decode_insert), `badTupleSentinel` = "Unexpected tuple type"
(decode_update), `expectedOldTuple` = "Expected old tuple (O/K)"
(decode_delete), `badColumnTag` = "Unknown tuple value type"
(read_tuple_data), `unterminatedCstr` = "Unexpected end of data while
reading string" (read_cstring), `invalidUtf8` = `String::from_utf8`
failure (read_cstring). -/
inductive DecodeError where
  | emptyMessage
  | unknownTag (t : Nat)
  | expectedNewTuple (t : Nat)
  | badTupleSentinel (t : Nat)
  | expectedOldTuple (t : Nat)
  | badColumnTag (t : Nat)
  | unterminatedCstr
  | invalidUtf8
deriving DecidableEq

/-- Result of reading from a byte buffer: a value together with the
unconsumed rest, a returned decoding error, or a process abort of the
`bytes` crate on a truncated fixed-width or length-prefixed read. -/
inductive RdRes (α : Type) where
  | ok (a : α) (rest : Bytes)
  | err (e : DecodeError)
  | panicked
deriving DecidableEq

/-- Sequencing on `RdRes`: run the continuation on the unconsumed rest. -/
def RdRes.bind {α β : Type} : RdRes α → (α → Bytes → RdRes β) → RdRes β
  | .ok a rest, f => f a rest
  | .err e, _ => .err e
  | .panicked, _ => .panicked

/-- True exactly on the abort outcome. -/
def RdRes.isPanic {α : Type} : RdRes α → Bool
  | .panicked => true
  | _ => false

/-- Model of `bytes::Buf::get_u8`: one byte, aborting on an empty buffer. -/
def get_u8 (data : Bytes) : RdRes Nat :=
  match data with
  | [] => .panicked
  | b :: rest => .ok b rest

/-- Take `n` leading bytes (the common core of the fixed-width getters and
of `copy_to_slice`), aborting when fewer than `n` remain. -/
def getBytes (n : Nat) (data : Bytes) : RdRes Bytes :=
  if n ≤ data.length then .ok (data.take n) (data.drop n) else .panicked

/-- Model of `bytes::Buf::get_u16` (big-endian). -/
def get_u16 (data : Bytes) : RdRes Nat :=
  (getBytes 2 data).bind fun bs rest => .ok (beVal bs) rest

/-- Model of `bytes::Buf::get_u32` (big-endian). -/
def get_u32 (data : Bytes) : RdRes Nat :=
  (getBytes 4 data).bind fun bs rest => .ok (beVal bs) rest

/-- Model of `bytes::Buf::get_u64` (big-endian). -/
def get_u64 (data : Bytes) : RdRes Nat :=
  (getBytes 8 data).bind fun bs rest => .ok (beVal bs) rest

/-- Model of `bytes::Buf::get_i32` (big-endian two's complement). -/
def get_i32 (data : Bytes) : RdRes Int :=
  (getBytes 4 data).bind fun bs rest => .ok (toSigned 32 (beVal bs)) rest

/-- Model of `bytes::Buf::get_i64` (big-endian two's complement). -/
def get_i64 (data : Bytes) : RdRes Int :=
  (getBytes 8 data).bind fun bs rest => .ok (toSigned 64 (beVal bs)) rest

/-- Continuation byte check for UTF-8 validation (0x80..0xBF). -/
def isCont (b : Nat) : Bool :=
  decide (128 ≤ b ∧ b ≤ 191)

/-- UTF-8 validity of a byte sequence, following the standard table that
`String::from_utf8` enforces (rejecting overlong forms, surrogates and
values above U+10FFFF). -/
def isValidUtf8 : Bytes → Bool
  | [] => true
  | b :: rest =>
    if b ≤ 127 then isValidUtf8 rest
    else if 194 ≤ b ∧ b ≤ 223 then
      match rest with
      | c :: r => isCont c && isValidUtf8 r
      | [] => false
    else if b = 224 then
      match rest with
      | c :: d :: r => decide (160 ≤ c ∧ c ≤ 191) && isCont d && isValidUtf8 r
      | _ => false
    else if 225 ≤ b ∧ b ≤ 236 then
      match rest with
      | c :: d :: r => isCont c && isCont d && isValidUtf8 r
      | _ => false
    else if b = 237 then
      match rest with
      | c :: d :: r => decide (128 ≤ c ∧ c ≤ 159) && isCont d && isValidUtf8 r
      | _ => false
    else if 238 ≤ b ∧ b ≤ 239 then
      match rest with
      | c :: d :: r => isCont c && isCont d && isValidUtf8 r
      | _ => false
    else if b = 240 then
      match rest with
      | c :: d :: e :: r => decide (144 ≤ c ∧ c ≤ 191) && isCont d && isCont e && isValidUtf8 r
      | _ => false
    else if 241 ≤ b ∧ b ≤ 243 then
      match rest with
      | c :: d :: e :: r => isCont c && isCont d && isCont e && isValidUtf8 r
      | _ => false
    else if b = 244 then
      match rest with
      | c :: d :: e :: r => decide (128 ≤ c ∧ c ≤ 143) && isCont d && isCont e && isValidUtf8 r
      | _ => false
    else false

/-- Split a byte sequence at its first NUL byte; `none` when no NUL occurs
(the loop of `read_cstring` then runs the buffer dry). -/
def splitAtNul : Bytes → Option (Bytes × Bytes)
  | [] => none
  | b :: rest =>
    if b = 0 then some ([], rest)
    else
      match splitAtNul rest with
      | some (s, r) => some (b :: s, r)
      | none => none

/-- Model of `read_cstring` (decoder.rs:221): bytes up to a NUL, an
`UnexpectedEof` error when the buffer ends first, an `InvalidData` error
when the collected bytes are not UTF-8.  The resulting Rust `String` is
represented by its UTF-8 bytes. -/
def read_cstring (data : Bytes) : RdRes Bytes :=
  match splitAtNul data with
  | none => .err .unterminatedCstr
  | some (s, rest) => if isValidUtf8 s then .ok s rest else .err .invalidUtf8

/-- Per-column loop of `read_tuple_data` (decoder.rs:245): tag `'n'` (110)
and tag `'u'` (117) both produce `None`; tag `'t'` (116) reads a u32
length and that many bytes; any other tag is an error. -/
def read_tuple_cols : Nat → Bytes → RdRes (List (Option Bytes))
  | 0, data => .ok [] data
  | n + 1, data =>
    (get_u8 data).bind fun value_type r1 =>
    if value_type = 110 then
      (read_tuple_cols n r1).bind fun t r2 => .ok (none :: t) r2
    else if value_type = 117 then
      (read_tuple_cols n r1).bind fun t r2 => .ok (none :: t) r2
    else if value_type = 116 then
      (get_u32 r1).bind fun len r2 =>
      (getBytes len r2).bind fun bs r3 =>
      (read_tuple_cols n r3).bind fun t r4 => .ok (some bs :: t) r4
    else .err (.badColumnTag value_type)

/-- Model of `read_tuple_data` (decoder.rs:241): a u16 column count
followed by that many tagged column values. -/
def read_tuple_data (data : Bytes) : RdRes (List (Option Bytes)) :=
  (get_u16 data).bind fun n_columns rest => read_tuple_cols n_columns rest

/-- Column metadata of a Relation message (messages.rs `ColumnInfo`).
Strings are represented by their UTF-8 bytes. -/
structure ColumnInfo where
  flags : Nat
  name : Bytes
  type_id : Nat
  type_modifier : Int
deriving DecidableEq

/-- Relation (table schema) message (messages.rs `RelationMessage`); the
Rust field `namespace` is called `nspace` because `namespace` is reserved
in Lean. -/
structure RelationMessage where
  rel_id : Nat
  nspace : Bytes
  name : Bytes
  replica_identity : Nat
  columns : List ColumnInfo
deriving DecidableEq

/-- Begin transaction message (messages.rs `BeginMessage`). -/
structure BeginMessage where
  final_lsn : Nat
  timestamp : Int
  xid : Nat
deriving DecidableEq

/-- Commit transaction message (messages.rs `CommitMessage`). -/
structure CommitMessage where
  flags : Nat
  commit_lsn : Nat
  end_lsn : Nat
  timestamp : Int
deriving DecidableEq

/-- Insert message (messages.rs `InsertMessage`). -/
structure InsertMessage where
  rel_id : Nat
  tuple : List (Option Bytes)
deriving DecidableEq

/-- Update message (messages.rs `UpdateMessage`). -/
structure UpdateMessage where
  rel_id : Nat
  old_tuple : Option (List (Option Bytes))
  new_tuple : List (Option Bytes)
deriving DecidableEq

/-- Delete message (messages.rs `DeleteMessage`). -/
structure DeleteMessage where
  rel_id : Nat
  old_tuple : List (Option Bytes)
deriving DecidableEq

/-- Truncate message (messages.rs `TruncateMessage`). -/
structure TruncateMessage where
  options : Nat
  rel_ids : List Nat
deriving DecidableEq

/-- Type message (messages.rs `TypeMessage`). -/
structure TypeMessage where
  type_id : Nat
  nspace : Bytes
  name : Bytes
deriving DecidableEq

/-- Origin message (messages.rs `OriginMessage`). -/
structure OriginMessage where
  lsn : Nat
  name : Bytes
deriving DecidableEq

/-- Logical replication message (messages.rs `LogicalMessage`); the Rust
field `prefix` is called `prefixStr` here. -/
structure LogicalMessage where
  transactional : Bool
  lsn : Nat
  prefixStr : Bytes
  content : Bytes
deriving DecidableEq

/-- Tagged union of all decoded pgoutput messages (messages.rs
`PgOutputMessage`). -/
inductive PgOutputMessage where
  | Begin (m : BeginMessage)
  | Commit (m : CommitMessage)
  | Relation (m : RelationMessage)
  | Insert (m : InsertMessage)
  | Update (m : UpdateMessage)
  | Delete (m : DeleteMessage)
  | Truncate (m : TruncateMessage)
  | Type (m : TypeMessage)
  | Origin (m : OriginMessage)
  | Message (m : LogicalMessage)
deriving DecidableEq

/-- Model of `decode_begin` (decoder.rs:44). -/
def decode_begin (data : Bytes) : RdRes PgOutputMessage :=
  (get_u64 data).bind fun final_lsn r1 =>
  (get_i64 r1).bind fun timestamp r2 =>
  (get_u32 r2).bind fun xid r3 =>
  .ok (.Begin ⟨final_lsn, timestamp, xid⟩) r3

/-- Model of `decode_commit` (decoder.rs:56). -/
def decode_commit (data : Bytes) : RdRes PgOutputMessage :=
  (get_u8 data).bind fun flags r1 =>
  (get_u64 r1).bind fun commit_lsn r2 =>
  (get_u64 r2).bind fun end_lsn r3 =>
  (get_i64 r3).bind fun timestamp r4 =>
  .ok (.Commit ⟨flags, commit_lsn, end_lsn, timestamp⟩) r4

/-- Column loop of `decode_relation` (decoder.rs:78). -/
def read_columns : Nat → Bytes → RdRes (List ColumnInfo)
  | 0, data => .ok [] data
  | n + 1, data =>
    (get_u8 data).bind fun flags r1 =>
    (read_cstring r1).bind fun col_name r2 =>
    (get_u32 r2).bind fun type_id r3 =>
    (get_i32 r3).bind fun type_modifier r4 =>
    (read_columns n r4).bind fun cols r5 =>
    .ok (⟨flags, col_name, type_id, type_modifier⟩ :: cols) r5

/-- Parsing part of `decode_relation` (decoder.rs:70); the cache insertion
performed at decoder.rs:101 happens in the `'R'` branch of `decode`. -/
def decode_relation (data : Bytes) : RdRes RelationMessage :=
  (get_u32 data).bind fun rel_id r1 =>
  (read_cstring r1).bind fun nspace r2 =>
  (read_cstring r2).bind fun name r3 =>
  (get_u8 r3).bind fun replica_identity r4 =>
  (get_u16 r4).bind fun n_columns r5 =>
  (read_columns n_columns r5).bind fun columns r6 =>
  .ok ⟨rel_id, nspace, name, replica_identity, columns⟩ r6

/-- Model of `decode_insert` (decoder.rs:106): the sentinel after `rel_id`
must be `'N'` (78). -/
def decode_insert (data : Bytes) : RdRes PgOutputMessage :=
  (get_u32 data).bind fun rel_id r1 =>
  (get_u8 r1).bind fun tuple_type r2 =>
  if tuple_type ≠ 78 then .err (.expectedNewTuple tuple_type)
  else
    (read_tuple_data r2).bind fun tuple r3 =>
    .ok (.Insert ⟨rel_id, tuple⟩) r3

/-- Model of `decode_update` (decoder.rs:122): sentinel `'O'` (79) or
`'K'` (75) reads an old tuple, then consumes one byte without validating
it (decoder.rs:129), then the new tuple; sentinel `'N'` (78) means no old
tuple; anything else is an error. -/
def decode_update (data : Bytes) : RdRes PgOutputMessage :=
  (get_u32 data).bind fun rel_id r1 =>
  (get_u8 r1).bind fun tuple_type r2 =>
  if tuple_type = 79 ∨ tuple_type = 75 then
    (read_tuple_data r2).bind fun old r3 =>
    (get_u8 r3).bind fun _ r4 =>
    (read_tuple_data r4).bind fun new_tuple r5 =>
    .ok (.Update ⟨rel_id, some old, new_tuple⟩) r5
  else if tuple_type = 78 then
    (read_tuple_data r2).bind fun new_tuple r3 =>
    .ok (.Update ⟨rel_id, none, new_tuple⟩) r3
  else .err (.badTupleSentinel tuple_type)

/-- Model of `decode_delete` (decoder.rs:150): the sentinel must be `'O'`
(79) or `'K'` (75). -/
def decode_delete (data : Bytes) : RdRes PgOutputMessage :=
  (get_u32 data).bind fun rel_id r1 =>
  (get_u8 r1).bind fun tuple_type r2 =>
  if tuple_type ≠ 79 ∧ tuple_type ≠ 75 then .err (.expectedOldTuple tuple_type)
  else
    (read_tuple_data r2).bind fun old_tuple r3 =>
    .ok (.Delete ⟨rel_id, old_tuple⟩) r3

/-- Relation-id loop of `decode_truncate` (decoder.rs:171). -/
def read_rel_ids : Nat → Bytes → RdRes (List Nat)
  | 0, data => .ok [] data
  | n + 1, data =>
    (get_u32 data).bind fun rid r1 =>
    (read_rel_ids n r1).bind fun rids r2 =>
    .ok (rid :: rids) r2

/-- Model of `decode_truncate` (decoder.rs:166). -/
def decode_truncate (data : Bytes) : RdRes PgOutputMessage :=
  (get_u32 data).bind fun n_relations r1 =>
  (get_u8 r1).bind fun options r2 =>
  (read_rel_ids n_relations r2).bind fun rel_ids r3 =>
  .ok (.Truncate ⟨options, rel_ids⟩) r3

/-- Model of `decode_type` (decoder.rs:178). -/
def decode_type (data : Bytes) : RdRes PgOutputMessage :=
  (get_u32 data).bind fun type_id r1 =>
  (read_cstring r1).bind fun nspace r2 =>
  (read_cstring r2).bind fun name r3 =>
  .ok (.Type ⟨type_id, nspace, name⟩) r3

/-- Model of `decode_origin` (decoder.rs:190). -/
def decode_origin (data : Bytes) : RdRes PgOutputMessage :=
  (get_u64 data).bind fun lsn r1 =>
  (read_cstring r1).bind fun name r2 =>
  .ok (.Origin ⟨lsn, name⟩) r2

/-- Model of `decode_message` (decoder.rs:197). -/
def decode_message (data : Bytes) : RdRes PgOutputMessage :=
  (get_u8 data).bind fun flags r1 =>
  (get_u64 r1).bind fun lsn r2 =>
  (read_cstring r2).bind fun pre r3 =>
  (get_u32 r3).bind fun content_len r4 =>
  (getBytes content_len r4).bind fun content r5 =>
  .ok (.Message ⟨(flags &&& 1) != 0, lsn, pre, content⟩) r5

/-- The relation cache of `PgOutputDecoder` (a `HashMap<u32,
RelationMessage>`), modelled by its lookup function. -/
def RelCache : Type := Nat → Option RelationMessage

/-- The empty cache of `PgOutputDecoder::new`. -/
def emptyRelCache : RelCache := fun _ => none

/-- Model of `HashMap::insert`: the entry for `k` is replaced, every other
entry is untouched. -/
def cacheInsert (c : RelCache) (k : Nat) (v : RelationMessage) : RelCache :=
  fun k' => if k' = k then some v else c k'

/-- Model of `PgOutputDecoder::get_relation` (decoder.rs:215). -/
def get_relation (c : RelCache) (rel_id : Nat) : Option RelationMessage :=
  c rel_id

/-- Overall outcome of `PgOutputDecoder::decode`: a message, a returned
`io::Error`, or a process abort on truncated input. -/
inductive DecodeResult where
  | ok (m : PgOutputMessage)
  | err (e : DecodeError)
  | panicked
deriving DecidableEq

/-- Forget the unconsumed rest of a sub-decoder result (the Rust methods
drop their `Bytes` argument on return). -/
def liftRes : RdRes PgOutputMessage → DecodeResult
  | .ok m _ => .ok m
  | .err e => .err e
  | .panicked => .panicked

/-- Model of `PgOutputDecoder::decode` (decoder.rs:19): dispatch on the
first byte read as a char — `'B'` 66, `'C'` 67, `'R'` 82, `'I'` 73, `'U'`
85, `'D'` 68, `'T'` 84, `'Y'` 89, `'O'` 79, `'M'` 77 — returning the
decoded message and the updated relation cache (only the `'R'` branch
writes the cache, at decoder.rs:101, and only after a fully successful
parse). -/
def decode (c : RelCache) (data : Bytes) : DecodeResult × RelCache :=
  match data with
  | [] => (.err .emptyMessage, c)
  | t :: rest =>
    match t with
    | 66 => (liftRes (decode_begin rest), c)
    | 67 => (liftRes (decode_commit rest), c)
    | 82 =>
      match decode_relation rest with
      | .ok r _ => (.ok (.Relation r), cacheInsert c r.rel_id r)
      | .err e => (.err e, c)
      | .panicked => (.panicked, c)
    | 73 => (liftRes (decode_insert rest), c)
    | 85 => (liftRes (decode_update rest), c)
    | 68 => (liftRes (decode_delete rest), c)
    | 84 => (liftRes (decode_truncate rest), c)
    | 89 => (liftRes (decode_type rest), c)
    | 79 => (liftRes (decode_origin rest), c)
    | 77 => (liftRes (decode_message rest), c)
    | _ => (.err (.unknownTag t), c)

/-- One converted column of the Debezium-shaped dicts that
`convert_message` builds (replication.rs:326-336): the column name keys
the dict entry, and the value produced by `convert_pg_value` is
represented by its inputs — the raw column bytes and the column's type
oid — since the host-language (Python) value itself is outside this
embedding.  `convert_pg_value` returns `Ok` on every path, so no error
case arises here. -/
structure PyColEntry where
  name : Bytes
  value : Option Bytes
  type_id : Nat
deriving DecidableEq

/-- Source metadata built by `create_source_metadata`
(replication.rs:296): the fields that vary per event.  The constant
fields (version, connector, name, snapshot) and the wall-clock `ts_ms`
are omitted from the embedding. -/
structure SourceMeta where
  db : Bytes
  schema : Bytes
  table : Bytes
  lsn : Nat
deriving DecidableEq

/-- Decoded replication message in Debezium shape (messages.rs
`ReplicationMessage`), without the wall-clock timestamp fields.  `op` is
the UTF-8 bytes of the operation string: "c" = [99], "u" = [117],
"d" = [100]. -/
structure ReplicationMessageM where
  before : Option (List PyColEntry)
  after : Option (List PyColEntry)
  source : SourceMeta
  op : Bytes
deriving DecidableEq

/-- Dict-building loop of `convert_message` (replication.rs:327-336): the
tuple values drive the iteration and `relation.columns.get(i)` drops any
value whose index has no column; since a list lookup past the end stays
past the end, this is a zip that stops at the shorter list. -/
def buildDict : List ColumnInfo → List (Option Bytes) → List PyColEntry
  | _, [] => []
  | [], _ :: _ => []
  | ci :: cs, v :: vs => ⟨ci.name, v, ci.type_id⟩ :: buildDict cs vs

/-- Model of `LogicalReplicationReader::convert_message`
(replication.rs:280): Begin/Commit/Relation and the catch-all arm yield
`None`; Insert/Update/Delete look their `rel_id` up in the relation cache
and yield `None` on a miss, otherwise the Debezium-shaped message. -/
def convert_message (msg : PgOutputMessage) (cache : RelCache) (lsn : Nat)
    (database : Bytes) : Option ReplicationMessageM :=
  match msg with
  | .Insert i =>
    match get_relation cache i.rel_id with
    | some relation =>
      some ⟨none, some (buildDict relation.columns i.tuple),
        ⟨database, relation.nspace, relation.name, lsn⟩, [99]⟩
    | none => none
  | .Update u =>
    match get_relation cache u.rel_id with
    | some relation =>
      some ⟨u.old_tuple.map (buildDict relation.columns),
        some (buildDict relation.columns u.new_tuple),
        ⟨database, relation.nspace, relation.name, lsn⟩, [117]⟩
    | none => none
  | .Delete d =>
    match get_relation cache d.rel_id with
    | some relation =>
      some ⟨some (buildDict relation.columns d.old_tuple), none,
        ⟨database, relation.nspace, relation.name, lsn⟩, [100]⟩
    | none => none
  | _ => none

/-- The configuration fields of `ReplicationConfig` (replication.rs:21)
that the receive loop reads: `auto_acknowledge` and (through
`convert_message`) `database`. -/
structure AnextConfig where
  auto_acknowledge : Bool
  database : Bytes

/-- The fields of `ReaderState` (replication.rs:33) that the receive loop
mutates: the decoder's relation cache, the `stopped` flag, and
`pending_lsn`.  The `client` slot is represented by the `RecvOutcome`
fed to the step, and `current_lsn` is never written by the source. -/
structure ReaderState where
  cache : RelCache
  stopped : Bool
  pending_lsn : Option Nat

/-- Outcome of one `client.recv().await` call (replication.rs:143):
an XLogData event, another event (`stoppedAt` marks `StoppedAt`),
a clean end of stream (`Ok(None)`), or a transport error (`Err`). -/
inductive RecvOutcome where
  | xlog (data : Bytes) (wal_end : Nat)
  | other (isStoppedAt : Bool)
  | closed
  | failed

/-- What one iteration of the `__anext__` receive loop does with the
outcome: yield a converted message (`Ok(Some(msg))`), finish the stream
(`Ok(None)`), raise the error to the caller (`Err`), keep looping, or
abort on a decoder panic. -/
inductive StepResult where
  | yield (m : ReplicationMessageM)
  | finished
  | raised
  | again
  | panicked
deriving DecidableEq

/-- Model of one iteration of the receive loop in `__anext__`
(replication.rs:127-216).  On an XLogData event the payload is decoded;
on success the applied LSN is either auto-acknowledged (an effect on the
client, not on this state) or stored in `pending_lsn`, and the message is
converted — yielding it if conversion produced one, otherwise looping; on
a decode error the error is printed to stderr and the loop continues
(replication.rs:175-180).  Non-XLogData events loop (or finish on
`StoppedAt`), a closed stream finishes, and a transport error is raised
without setting `stopped`. -/
def anext_step (config : AnextConfig) (st : ReaderState) (r : RecvOutcome) :
    StepResult × ReaderState :=
  if st.stopped then (.finished, st)
  else
    match r with
    | .xlog data wal_end =>
      match decode st.cache data with
      | (.ok pg_msg, cache') =>
        let st' : ReaderState :=
          { st with
            cache := cache'
            pending_lsn :=
              if config.auto_acknowledge then st.pending_lsn else some wal_end }
        match convert_message pg_msg cache' wal_end config.database with
        | some m => (.yield m, st')
        | none => (.again, st')
      | (.err _, cache') => (.again, { st with cache := cache' })
      | (.panicked, cache') => (.panicked, { st with cache := cache' })
    | .other isStoppedAt => if isStoppedAt then (.finished, st) else (.again, st)
    | .closed => (.finished, st)
    | .failed => (.raised, st)

/-- Model of `ExponentialBackoff` (utils.rs:28).  Delays are in
milliseconds; the Rust `multiplier` is the f64 `2.0`, modelled as the
natural number 2 — exact because every reachable delay is an integer
below 2^53, where f64 multiplication by 2 is exact. -/
structure ExponentialBackoff where
  current_delay : Nat
  max_delay : Nat
  multiplier : Nat
  attempts : Nat
deriving DecidableEq

/-- Model of `ExponentialBackoff::new` (utils.rs:36): 100 ms initial
delay, 30 s cap, multiplier 2, zero attempts. -/
def ExponentialBackoff.new : ExponentialBackoff :=
  ⟨100, 30000, 2, 0⟩

/-- Model of `ExponentialBackoff::wait` (utils.rs:45): increment the
attempt count and set the delay to the doubled delay capped at
`max_delay` (the sleep itself is a timing effect outside the state). -/
def ExponentialBackoff.wait (b : ExponentialBackoff) : ExponentialBackoff :=
  ⟨min (b.current_delay * b.multiplier) b.max_delay, b.max_delay,
    b.multiplier, b.attempts + 1⟩

/-- Model of `ExponentialBackoff::reset` (utils.rs:53). -/
def ExponentialBackoff.reset (b : ExponentialBackoff) : ExponentialBackoff :=
  ⟨100, b.max_delay, b.multiplier, 0⟩

/-- State after `n` calls to `wait`. -/
def iterWait : Nat → ExponentialBackoff → ExponentialBackoff
  | 0, b => b
  | n + 1, b => (iterWait n b).wait

/-- Character for one digit value (0-9, then uppercase A-F). -/
def digitChar (d : Nat) : Char :=
  if d < 10 then Char.ofNat (48 + d) else Char.ofNat (55 + d)

/-- Value of a digit character: decimal digits, then both cases of the
hex letters, as `from_str_radix` accepts. -/
def charHexVal (c : Char) : Option Nat :=
  if 48 ≤ c.toNat ∧ c.toNat ≤ 57 then some (c.toNat - 48)
  else if 65 ≤ c.toNat ∧ c.toNat ≤ 70 then some (c.toNat - 55)
  else if 97 ≤ c.toNat ∧ c.toNat ≤ 102 then some (c.toNat - 87)
  else none

/-- Digit value restricted to a base. -/
def digVal (base : Nat) (c : Char) : Option Nat :=
  match charHexVal c with
  | some v => if v < base then some v else none
  | none => none

/-- Digits of `n` in the given base, most significant first, no leading
zeros ("0" for zero). -/
def toCharsB (base : Nat) (hb : 2 ≤ base) (n : Nat) : List Char :=
  if _h : n < base then [digitChar n]
  else toCharsB base hb (n / base) ++ [digitChar (n % base)]
termination_by n
decreasing_by
  exact Nat.div_lt_self (by omega) (by omega)

/-- Left-to-right digit accumulation; `none` as soon as a character is
not a digit of the base. -/
def parseDigitsCore (base : Nat) (cs : List Char) : Option Nat :=
  cs.foldl
    (fun acc c =>
      match acc, digVal base c with
      | some a, some d => some (a * base + d)
      | _, _ => none)
    (some 0)

/-- Uppercase hexadecimal digits of `n`, no leading zeros. -/
def toHexUpper (n : Nat) : List Char :=
  toCharsB 16 (by norm_num) n

/-- Decimal digits of `n`, no leading zeros. -/
def toDecChars (n : Nat) : List Char :=
  toCharsB 10 (by norm_num) n

/-- Split a character list at its first `'/'`. -/
def splitSlash : List Char → Option (List Char × List Char)
  | [] => none
  | c :: rest =>
    if c = '/' then some ([], rest)
    else
      match splitSlash rest with
      | some (a, b) => some (c :: a, b)
      | none => none

/-- Modelled from the spec: formatting an LSN "to the canonical `X/Y`
hexadecimal textual form (high 32 bits `/` low 32 bits, uppercase, no
leading zeros)" (spec §3).  The `Lsn` type itself lives in the external
`pgwire_replication` crate, outside `src/`. -/
def lsn_format (lsn : Nat) : List Char :=
  toHexUpper (lsn / 2 ^ 32) ++ '/' :: toHexUpper (lsn % 2 ^ 32)

/-- Modelled from the spec: parsing the `X/Y` hexadecimal textual form of
an LSN (spec §3), each side a 32-bit hexadecimal number.  The `Lsn` type
itself lives in the external `pgwire_replication` crate, outside
`src/`. -/
def lsn_parse (cs : List Char) : Option Nat :=
  match splitSlash cs with
  | none => none
  | some (a, b) =>
    if a = [] ∨ b = [] then none
    else
      match parseDigitsCore 16 a, parseDigitsCore 16 b with
      | some hi, some lo =>
        if hi < 2 ^ 32 ∧ lo < 2 ^ 32 then some (hi * 2 ^ 32 + lo) else none
      | _, _ => none

/-- Model of the LSN-string parsing in `acknowledge`
(replication.rs:250): `lsn_str.parse::<u64>()`, i.e. the `u64` FromStr
implementation — an optional leading `'+'`, then decimal digits, failing
on overflow past 2^64.  `stripPlus` removes the optional sign. -/
def stripPlus (cs : List Char) : List Char :=
  match cs with
  | c :: rest => if c = '+' then rest else cs
  | [] => []

/-- Model of the LSN-string parsing in `acknowledge` (replication.rs:250):
nonempty decimal digits after the optional sign, value below 2^64. -/
def ackParseLsn (cs : List Char) : Option Nat :=
  if (stripPlus cs).isEmpty then none
  else
    match parseDigitsCore 10 (stripPlus cs) with
    | some v => if v < 2 ^ 64 then some v else none
    | none => none

/-- Relation payload of spec Scenario B, tag byte `'R'` (82) first:
rel_id 41, namespace "public", name "test", replica identity `'f'` (102),
two columns `id` (flags 1, type oid 23, modifier -1) and `val` (flags 0,
type oid 25, modifier -1). -/
def relBytes : Bytes :=
  [82, 0, 0, 0, 41, 112, 117, 98, 108, 105, 99, 0, 116, 101, 115, 116, 0,
   102, 0, 2, 1, 105, 100, 0, 0, 0, 0, 23, 255, 255, 255, 255, 0, 118, 97,
   108, 0, 0, 0, 0, 25, 255, 255, 255, 255]

/-- Insert payload of spec Scenario B, tag byte `'I'` (73) first: rel_id
41, sentinel `'N'`, two `'t'` columns "1" and "hello". -/
def insBytes : Bytes :=
  [73, 0, 0, 0, 41, 78, 0, 2, 116, 0, 0, 0, 1, 49, 116, 0, 0, 0, 5, 104,
   101, 108, 108, 111]

/-- The relation value Scenario B's payload decodes to. -/
def relC : RelationMessage :=
  ⟨41, [112, 117, 98, 108, 105, 99], [116, 101, 115, 116], 102,
    [⟨1, [105, 100], 23, -1⟩, ⟨0, [118, 97, 108], 25, -1⟩]⟩

/-- A cache holding only Scenario B's relation. -/
def cacheC : RelCache := cacheInsert emptyRelCache 41 relC

/-- A concrete reader configuration: auto-acknowledge on, empty database
name. -/
def cfg0 : AnextConfig := ⟨true, []⟩

/-- A running reader whose decoder knows Scenario B's relation. -/
def st0 : ReaderState := ⟨cacheC, false, none⟩

theorem getBytes_append (xs ys : Bytes) (n : Nat) (h : xs.length = n) :
    getBytes n (xs ++ ys) = .ok xs ys := by
  subst h
  simp [getBytes, List.take_left, List.drop_left]

theorem get_u16_append (xs ys : Bytes) (h : xs.length = 2) :
    get_u16 (xs ++ ys) = .ok (beVal xs) ys := by
  simp [get_u16, getBytes_append xs ys 2 h, RdRes.bind]

theorem get_u32_append (xs ys : Bytes) (h : xs.length = 4) :
    get_u32 (xs ++ ys) = .ok (beVal xs) ys := by
  simp [get_u32, getBytes_append xs ys 4 h, RdRes.bind]

theorem get_relation_insert_self (c : RelCache) (k : Nat) (v : RelationMessage) :
    get_relation (cacheInsert c k v) k = some v := by
  simp [get_relation, cacheInsert]

theorem get_relation_insert_other (c : RelCache) (k : Nat) (v : RelationMessage)
    (k' : Nat) (h : k' ≠ k) : get_relation (cacheInsert c k v) k' = get_relation c k' := by
  simp [get_relation, cacheInsert, h]

theorem charHexVal_digitChar (d : Nat) (h : d < 16) :
    charHexVal (digitChar d) = some d := by
  interval_cases d <;> rfl

theorem digitChar_ne_slash (d : Nat) (h : d < 16) : digitChar d ≠ '/' := by
  interval_cases d <;> decide

theorem digitChar_ne_plus (d : Nat) (h : d < 16) : digitChar d ≠ '+' := by
  interval_cases d <;> decide

theorem digVal_digitChar (base d : Nat) (hd : d < base) (hb16 : base ≤ 16) :
    digVal base (digitChar d) = some d := by
  unfold digVal
  rw [charHexVal_digitChar d (lt_of_lt_of_le hd hb16)]
  simp [hd]

theorem parseDigitsCore_append (base : Nat) (xs : List Char) (c : Char) :
    parseDigitsCore base (xs ++ [c]) =
      match parseDigitsCore base xs, digVal base c with
      | some a, some d => some (a * base + d)
      | _, _ => none := by
  unfold parseDigitsCore
  rw [List.foldl_append]
  rfl

theorem parseDigitsCore_toCharsB (base : Nat) (hb : 2 ≤ base) (hb16 : base ≤ 16) :
    ∀ n, parseDigitsCore base (toCharsB base hb n) = some n := by
  intro n
  induction n using Nat.strong_induction_on with
  | _ n ih =>
    rw [toCharsB]
    split
    · next h =>
      simp [parseDigitsCore, digVal_digitChar base n h hb16]
    · next h =>
      rw [parseDigitsCore_append]
      rw [ih (n / base) (Nat.div_lt_self (by omega) (by omega))]
      rw [digVal_digitChar base (n % base) (Nat.mod_lt _ (by omega)) hb16]
      simpa using Nat.div_add_mod' n base

theorem toCharsB_ne_nil (base : Nat) (hb : 2 ≤ base) (n : Nat) :
    toCharsB base hb n ≠ [] := by
  rw [toCharsB]
  split <;> simp

theorem mem_toCharsB (base : Nat) (hb : 2 ≤ base) (hb16 : base ≤ 16) :
    ∀ n c, c ∈ toCharsB base hb n → ∃ d, d < 16 ∧ c = digitChar d := by
  intro n
  induction n using Nat.strong_induction_on with
  | _ n ih =>
    intro c hmem
    rw [toCharsB] at hmem
    split at hmem
    · next h =>
      simp at hmem
      exact ⟨n, lt_of_lt_of_le h hb16, hmem⟩
    · next h =>
      rw [List.mem_append] at hmem
      rcases hmem with hmem | hmem
      · exact ih (n / base) (Nat.div_lt_self (by omega) (by omega)) c hmem
      · simp at hmem
        exact ⟨n % base, lt_of_lt_of_le (Nat.mod_lt _ (by omega)) hb16, hmem⟩

theorem slash_not_mem_toHexUpper (n : Nat) : '/' ∉ toHexUpper n := by
  intro hmem
  obtain ⟨d, hd, hEq⟩ := mem_toCharsB 16 (by norm_num) (by norm_num) n _ hmem
  exact digitChar_ne_slash d hd hEq.symm

theorem splitSlash_append (ys : List Char) :
    ∀ xs : List Char, '/' ∉ xs → splitSlash (xs ++ '/' :: ys) = some (xs, ys) := by
  intro xs
  induction xs with
  | nil => intro _; simp [splitSlash]
  | cons c cs ih =>
    intro h
    rw [List.mem_cons, not_or] at h
    have hc : ¬(c = '/') := fun hEq => h.1 hEq.symm
    rw [List.cons_append]
    rw [splitSlash]
    rw [if_neg hc, ih h.2]

theorem toHexUpper_ne_nil (n : Nat) : toHexUpper n ≠ [] := by
  unfold toHexUpper
  exact toCharsB_ne_nil 16 (by norm_num) n

theorem parseHexUpper (n : Nat) : parseDigitsCore 16 (toHexUpper n) = some n := by
  unfold toHexUpper
  exact parseDigitsCore_toCharsB 16 (by norm_num) (by norm_num) n

theorem lsn_parse_hexpair (a b : Nat) (ha : a < 2 ^ 32) (hb : b < 2 ^ 32) :
    lsn_parse (toHexUpper a ++ '/' :: toHexUpper b) = some (a * 2 ^ 32 + b) := by
  unfold lsn_parse
  rw [splitSlash_append (toHexUpper b) (toHexUpper a) (slash_not_mem_toHexUpper a)]
  simp [toHexUpper_ne_nil, parseHexUpper, ha, hb]
  omega

theorem lsn_format_hexpair (a b : Nat) (hb : b < 2 ^ 32) :
    lsn_format (a * 2 ^ 32 + b) = toHexUpper a ++ '/' :: toHexUpper b := by
  have h32 : (2 : Nat) ^ 32 = 4294967296 := by norm_num
  have hdiv : (a * 2 ^ 32 + b) / 2 ^ 32 = a := by
    rw [h32] at hb ⊢
    omega
  have hmod : (a * 2 ^ 32 + b) % 2 ^ 32 = b := by
    rw [h32] at hb ⊢
    omega
  unfold lsn_format
  rw [hdiv, hmod]

theorem ackParseLsn_toDecChars (n : Nat) (hn : n < 2 ^ 64) :
    ackParseLsn (toDecChars n) = some n := by
  obtain ⟨c0, r0, hEq⟩ : ∃ c0 r0, toDecChars n = c0 :: r0 := by
    cases h : toDecChars n with
    | nil =>
      exfalso
      apply toCharsB_ne_nil 10 (by norm_num) n
      unfold toDecChars at h
      exact h
    | cons a l => exact ⟨a, l, rfl⟩
  have hc0 : ¬(c0 = '+') := by
    have hm : c0 ∈ toDecChars n := by
      rw [hEq]
      exact List.mem_cons_self _ _
    unfold toDecChars at hm
    obtain ⟨d, hd, hEq2⟩ := mem_toCharsB 10 (by norm_num) (by norm_num) n c0 hm
    exact fun hplus => digitChar_ne_plus d hd (hEq2 ▸ hplus)
  have hstrip : stripPlus (toDecChars n) = toDecChars n := by
    rw [hEq]
    simp [stripPlus, hc0]
  have hne : (toDecChars n).isEmpty = false := by
    rw [hEq]
    rfl
  have hpd : parseDigitsCore 10 (toDecChars n) = some n := by
    unfold toDecChars
    exact parseDigitsCore_toCharsB 10 (by norm_num) (by norm_num) n
  unfold ackParseLsn
  rw [hstrip]
  simp [hne, hpd, hn]
  omega

/-- C1 (counterexample): the claim's three-way distinction fails — a
column tagged `'u'` (117, UnchangedToast) decodes to the very same value
(`none`) as a column tagged `'n'` (110, Null), so the decoded values are
not distinct. -/
theorem tupleData_toast_collapsed_cex :
    read_tuple_data [0, 1, 117] = RdRes.ok [none] [] ∧
    read_tuple_data [0, 1, 110] = RdRes.ok [none] [] :=
  ⟨rfl, rfl⟩

/-- C1 (amended): a column tagged `'u'` decodes exactly as one tagged
`'n'` — both to `none`, collapsing the Null/UnchangedToast distinction —
while a column tagged `'t'` decodes to `some` of exactly the
length-prefixed bytes. -/
theorem tupleData_column_decoding :
    (∀ (n : Nat) (rest : Bytes),
       read_tuple_cols (n + 1) (117 :: rest) = read_tuple_cols (n + 1) (110 :: rest)) ∧
    (∀ (n : Nat) (rest : Bytes) (t : List (Option Bytes)) (r : Bytes),
       read_tuple_cols n rest = RdRes.ok t r →
       read_tuple_cols (n + 1) (110 :: rest) = RdRes.ok (none :: t) r) ∧
    (∀ (n : Nat) (len4 bs rest : Bytes) (t : List (Option Bytes)) (r : Bytes),
       len4.length = 4 → bs.length = beVal len4 →
       read_tuple_cols n rest = RdRes.ok t r →
       read_tuple_cols (n + 1) (116 :: (len4 ++ (bs ++ rest))) =
         RdRes.ok (some bs :: t) r) := by
  refine ⟨?_, ?_, ?_⟩
  · intro n rest
    simp [read_tuple_cols, get_u8, RdRes.bind]
  · intro n rest t r h
    simp [read_tuple_cols, get_u8, RdRes.bind, h]
  · intro n len4 bs rest t r h4 hlen h
    simp [read_tuple_cols, get_u8, RdRes.bind, get_u32_append len4 _ h4,
      getBytes_append bs rest (beVal len4) hlen, h]

/-- C1 (witness): the amended theorem applied at one `'t'` column holding
the two bytes "12". -/
theorem tupleData_column_decoding_witness :
    read_tuple_cols 0 [] = RdRes.ok [] [] ∧
    read_tuple_cols 1 (116 :: ([0, 0, 0, 2] ++ ([49, 50] ++ []))) =
      RdRes.ok [some [49, 50]] [] :=
  ⟨rfl, tupleData_column_decoding.2.2 0 [0, 0, 0, 2] [49, 50] [] [] [] rfl rfl rfl⟩

/-- C4 (counterexample): decoding is not total — the truncated Begin
payload `[66]` (tag `'B'` with nothing after it) makes `get_u64` abort
the process rather than return a `DecodeError`. -/
theorem decode_panics_cex : (decode emptyRelCache [66]).1 = DecodeResult.panicked :=
  rfl

/-- C4 (amended): empty input returns the "Empty message" error, but a
Begin payload whose body is shorter than the 20 fixed-width bytes aborts
(panics) instead of returning an error such as TruncatedFrame; only
C-string reading handles end-of-buffer gracefully, never panicking. -/
theorem decode_truncation_behavior :
    (∀ c : RelCache, (decode c []).1 = DecodeResult.err .emptyMessage) ∧
    (∀ (c : RelCache) (rest : Bytes),
       (decode c (66 :: rest)).1 = DecodeResult.panicked ↔ rest.length < 20) ∧
    (∀ data : Bytes, (read_cstring data).isPanic = false) := by
  refine ⟨fun c => rfl, ?_, ?_⟩
  · intro c rest
    simp only [decode, decode_begin, get_u64, get_i64, get_u32, getBytes,
      RdRes.bind, liftRes]
    by_cases h1 : 8 ≤ rest.length
    · simp only [h1, if_true, List.length_drop]
      by_cases h2 : 8 ≤ rest.length - 8
      · simp only [h2, if_true, List.length_drop]
        by_cases h3 : 4 ≤ rest.length - 8 - 8
        · simp only [h3, if_true]
          simp
          omega
        · simp only [h3, if_false]
          simp
          omega
      · simp only [h2, if_false]
        simp
        omega
    · simp only [h1, if_false]
      simp
      omega
  · intro data
    unfold read_cstring
    cases h : splitAtNul data with
    | none => rfl
    | some p =>
      cases p with
      | mk s r =>
        by_cases hu : isValidUtf8 s <;> simp [RdRes.isPanic, hu]

/-- C8: Scenario B — decoding the Relation payload registers relation 41
("public"."test", columns `id` with the key flag and type oid 23 and
`val` with type oid 25), and decoding the Insert payload afterwards
yields rel_id 41 with the present values "1" (49) and "hello"
(104 101 108 108 111). -/
theorem scenario_b :
    (decode emptyRelCache relBytes).1 =
      DecodeResult.ok (.Relation ⟨41, [112, 117, 98, 108, 105, 99],
        [116, 101, 115, 116], 102,
        [⟨1, [105, 100], 23, -1⟩, ⟨0, [118, 97, 108], 25, -1⟩]⟩) ∧
    get_relation (decode emptyRelCache relBytes).2 41 =
      some ⟨41, [112, 117, 98, 108, 105, 99], [116, 101, 115, 116], 102,
        [⟨1, [105, 100], 23, -1⟩, ⟨0, [118, 97, 108], 25, -1⟩]⟩ ∧
    (decode (decode emptyRelCache relBytes).2 insBytes).1 =
      DecodeResult.ok (.Insert ⟨41, [some [49], some [104, 101, 108, 108, 111]]⟩) :=
  ⟨rfl, rfl, rfl⟩

/-- C9: after `n` calls to `wait` starting from `new`, the delay is
min(100 · 2^n, 30000) milliseconds with `attempts = n`, and `reset`
restores the initial 100 ms / 0 attempts state. -/
theorem backoff_doubling_capped :
    (∀ n : Nat, iterWait n ExponentialBackoff.new =
       ⟨min (100 * 2 ^ n) 30000, 30000, 2, n⟩) ∧
    (∀ n : Nat, (iterWait n ExponentialBackoff.new).reset = ExponentialBackoff.new) := by
  have key : ∀ n : Nat, iterWait n ExponentialBackoff.new =
      ⟨min (100 * 2 ^ n) 30000, 30000, 2, n⟩ := by
    intro n
    induction n with
    | zero => norm_num [iterWait, ExponentialBackoff.new]
    | succ n ih =>
      rw [iterWait, ih]
      have h : min (min (100 * 2 ^ n) 30000 * 2) 30000 = min (100 * 2 ^ (n + 1)) 30000 := by
        have h2 : 100 * 2 ^ (n + 1) = 100 * 2 ^ n * 2 := by ring
        rw [h2]
        generalize 100 * 2 ^ n = a
        omega
      simp [ExponentialBackoff.wait, h]
  refine ⟨key, fun n => ?_⟩
  rw [key n]
  rfl

/-- C2 (counterexample): a failed decode does not terminate the session —
on the undecodable payload `[90]` the loop step continues with the state
unchanged (not an error result, `stopped` still false), and a later
XLogData event is still delivered as a message. -/
theorem anext_decode_error_cex :
    anext_step cfg0 st0 (.xlog [90] 7) = (.again, st0) ∧
    st0.stopped = false ∧
    (anext_step cfg0 st0 (.xlog insBytes 8)).1 =
      .yield ⟨none,
        some [⟨[105, 100], some [49], 23⟩,
          ⟨[118, 97, 108], some [104, 101, 108, 108, 111], 25⟩],
        ⟨[], [112, 117, 98, 108, 105, 99], [116, 101, 115, 116], 8⟩, [99]⟩ :=
  ⟨rfl, rfl, rfl⟩

/-- C2 (amended): when decoding an XLogData payload fails, the error is
printed to stderr and the event is skipped — the loop continues with the
reader not stopped, so further events are still delivered; only a
transport `recv()` error is returned as the result, and even it leaves
`stopped` unset. -/
theorem anext_decode_error_skips (cfg : AnextConfig) (st : ReaderState)
    (data : Bytes) (wal_end : Nat) (e : DecodeError)
    (hstop : st.stopped = false)
    (herr : (decode st.cache data).1 = .err e) :
    anext_step cfg st (.xlog data wal_end) =
      (.again, { st with cache := (decode st.cache data).2 }) ∧
    ((anext_step cfg st (.xlog data wal_end)).2).stopped = false ∧
    anext_step cfg st .failed = (.raised, st) := by
  rcases hdef : decode st.cache data with ⟨res, c'⟩
  rw [hdef] at herr
  have hres : res = DecodeResult.err e := herr
  subst hres
  refine ⟨?_, ?_, ?_⟩
  · simp [anext_step, hstop, hdef]
  · simp [anext_step, hstop, hdef]
  · simp [anext_step, hstop]

/-- C2 (witness): the amended theorem applied to a fresh reader and the
unknown-tag payload `[90]`. -/
theorem anext_decode_error_skips_witness :
    (⟨emptyRelCache, false, none⟩ : ReaderState).stopped = false ∧
    (decode emptyRelCache [90]).1 = .err (.unknownTag 90) ∧
    anext_step cfg0 ⟨emptyRelCache, false, none⟩ (.xlog [90] 7) =
      (.again, { (⟨emptyRelCache, false, none⟩ : ReaderState) with
        cache := (decode emptyRelCache [90]).2 }) :=
  ⟨rfl, rfl,
    (anext_decode_error_skips cfg0 ⟨emptyRelCache, false, none⟩ [90] 7
      (.unknownTag 90) rfl rfl).1⟩

/-- C3 (counterexample): a cache miss is not surfaced as an error —
converting an Insert whose rel_id 41 is absent from the cache yields
`none`, and the receive loop silently drops the event (it loops instead
of raising). -/
theorem convert_unknown_relation_cex :
    convert_message (.Insert ⟨41, [some [49]]⟩) emptyRelCache 5 [] = none ∧
    (anext_step cfg0 ⟨emptyRelCache, false, none⟩ (.xlog insBytes 8)).1 =
      StepResult.again :=
  ⟨rfl, rfl⟩

/-- C3 (amended): when the facade lifts an Insert, Update, or Delete
event it looks the event's rel_id up in the relation cache, and a cache
miss makes `convert_message` return `None` — the event is silently
dropped rather than surfaced as an UnknownRelation error; on a hit the
converted message is built from the cached relation. -/
theorem convert_relation_lookup (cache : RelCache) (lsn : Nat) (db : Bytes) :
    (∀ i : InsertMessage, get_relation cache i.rel_id = none →
       convert_message (.Insert i) cache lsn db = none) ∧
    (∀ u : UpdateMessage, get_relation cache u.rel_id = none →
       convert_message (.Update u) cache lsn db = none) ∧
    (∀ d : DeleteMessage, get_relation cache d.rel_id = none →
       convert_message (.Delete d) cache lsn db = none) ∧
    (∀ (i : InsertMessage) (r : RelationMessage),
       get_relation cache i.rel_id = some r →
       convert_message (.Insert i) cache lsn db =
         some ⟨none, some (buildDict r.columns i.tuple),
           ⟨db, r.nspace, r.name, lsn⟩, [99]⟩) := by
  refine ⟨fun i h => ?_, fun u h => ?_, fun d h => ?_, fun i r h => ?_⟩ <;>
    simp [convert_message, h]

/-- C3 (witness): the amended theorem applied to the empty cache and an
Insert for relation 41. -/
theorem convert_relation_lookup_witness :
    get_relation emptyRelCache 41 = none ∧
    convert_message (.Insert ⟨41, []⟩) emptyRelCache 3 [] = none :=
  ⟨rfl, (convert_relation_lookup emptyRelCache 3 []).1 ⟨41, []⟩ rfl⟩

/-- C5 (counterexample): the canonical `X/Y` string "0/1" parses to LSN 1
under the spec-modelled LSN syntax, yet the `acknowledge` argument parser
rejects it — `acknowledge` accepts plain decimal u64 text, not the `X/Y`
form. -/
theorem acknowledge_lsn_cex :
    ackParseLsn ['0', '/', '1'] = none ∧ lsn_parse ['0', '/', '1'] = some 1 :=
  ⟨rfl, rfl⟩

/-- C5 (amended): for the spec-modelled LSN text (the `Lsn` type lives in
the external replication crate), `parse (format lsn) = lsn` for every
u64, and parse-then-format is the identity on canonical
uppercase-no-leading-zero `X/Y` strings; the `lsn` argument of
`acknowledge`, however, is parsed as a plain decimal u64 string. -/
theorem lsn_roundtrip_amended :
    (∀ lsn : Nat, lsn < 2 ^ 64 → lsn_parse (lsn_format lsn) = some lsn) ∧
    (∀ a b : Nat, a < 2 ^ 32 → b < 2 ^ 32 →
       lsn_parse (toHexUpper a ++ '/' :: toHexUpper b) = some (a * 2 ^ 32 + b) ∧
       lsn_format (a * 2 ^ 32 + b) = toHexUpper a ++ '/' :: toHexUpper b) ∧
    (∀ n : Nat, n < 2 ^ 64 → ackParseLsn (toDecChars n) = some n) := by
  refine ⟨?_, ?_, ackParseLsn_toDecChars⟩
  · intro lsn hlsn
    have hdiv : lsn / 2 ^ 32 < 2 ^ 32 := by
      have h32 : (2 : Nat) ^ 32 = 4294967296 := by norm_num
      have h64 : (2 : Nat) ^ 64 = 18446744073709551616 := by norm_num
      rw [h32]
      rw [h64] at hlsn
      omega
    have hmod : lsn % 2 ^ 32 < 2 ^ 32 :=
      Nat.mod_lt _ (by norm_num)
    have hfmt : lsn_format lsn = toHexUpper (lsn / 2 ^ 32) ++ '/' :: toHexUpper (lsn % 2 ^ 32) :=
      rfl
    rw [hfmt, lsn_parse_hexpair _ _ hdiv hmod, Nat.div_add_mod']
  · intro a b ha hb
    exact ⟨lsn_parse_hexpair a b ha hb, lsn_format_hexpair a b hb⟩

/-- C5 (witness): the amended theorem applied at LSN 4294967298, whose
canonical form is "1/2". -/
theorem lsn_roundtrip_amended_witness :
    (4294967298 : Nat) < 2 ^ 64 ∧ lsn_parse (lsn_format 4294967298) = some 4294967298 :=
  ⟨by norm_num, lsn_roundtrip_amended.1 4294967298 (by norm_num)⟩

/-- C6: the relation cache is written only by a successfully decoded
Relation message — every decode either leaves the cache untouched, or it
returned `Relation r` and replaced exactly the entry for `r.rel_id`
(observably through `get_relation`), leaving every other relation id
unchanged. -/
theorem relation_cache_frame (c : RelCache) (data : Bytes) :
    (decode c data).2 = c ∨
    ∃ r : RelationMessage,
      (decode c data).1 = DecodeResult.ok (.Relation r) ∧
      (decode c data).2 = cacheInsert c r.rel_id r ∧
      get_relation (decode c data).2 r.rel_id = some r ∧
      ∀ k, k ≠ r.rel_id → get_relation (decode c data).2 k = get_relation c k := by
  cases data with
  | nil => exact Or.inl rfl
  | cons t rest =>
    unfold decode
    split <;> try exact Or.inl rfl
    next b rest2 heq =>
      injection heq with h1 h2
      subst h1
      subst h2
      split <;> try exact Or.inl rfl
      split
      · next r rem heq2 =>
        right
        exact ⟨r, rfl, rfl, get_relation_insert_self c r.rel_id r,
          fun k hk => get_relation_insert_other c r.rel_id r k hk⟩
      · exact Or.inl rfl
      · exact Or.inl rfl

/-- C6 (witness): the frame theorem applied to the empty cache and
Scenario B's Relation payload — relation 41 becomes visible, relation 7
stays absent. -/
theorem relation_cache_frame_witness :
    get_relation (decode emptyRelCache relBytes).2 41 = some relC ∧
    get_relation (decode emptyRelCache relBytes).2 7 = none := by
  rcases relation_cache_frame emptyRelCache relBytes with h | ⟨r, h1, h2, h3, h4⟩
  · exfalso
    have hv : get_relation (decode emptyRelCache relBytes).2 41 = some relC := rfl
    rw [h] at hv
    exact Option.noConfusion hv
  · have h1' : (decode emptyRelCache relBytes).1 = DecodeResult.ok (.Relation relC) := rfl
    have heq := h1.symm.trans h1'
    injection heq with hmsg
    injection hmsg with hrel
    subst hrel
    refine ⟨h3, ?_⟩
    have h7 := h4 7 (by decide)
    rw [h7]
    rfl

/-- C7: Update decoding distinguishes its two forms by the leading
sentinel — `'O'` (79) or `'K'` (75) yields `old_tuple = some old` with
the old TupleData followed by the sentinel `'N'` (78) and the new
TupleData; a leading `'N'` yields `old_tuple = none` with the rest as the
new TupleData; any other leading sentinel yields the bad-sentinel
error. -/
theorem decode_update_sentinels :
    (∀ (rid4 tdata rest2 rest3 : Bytes) (s : Nat)
       (old new_t : List (Option Bytes)),
       rid4.length = 4 → (s = 79 ∨ s = 75) →
       read_tuple_data tdata = RdRes.ok old (78 :: rest2) →
       read_tuple_data rest2 = RdRes.ok new_t rest3 →
       decode_update (rid4 ++ s :: tdata) =
         RdRes.ok (.Update ⟨beVal rid4, some old, new_t⟩) rest3) ∧
    (∀ (rid4 tdata rest2 : Bytes) (new_t : List (Option Bytes)),
       rid4.length = 4 →
       read_tuple_data tdata = RdRes.ok new_t rest2 →
       decode_update (rid4 ++ 78 :: tdata) =
         RdRes.ok (.Update ⟨beVal rid4, none, new_t⟩) rest2) ∧
    (∀ (rid4 tdata : Bytes) (s : Nat),
       rid4.length = 4 → s ≠ 79 → s ≠ 75 → s ≠ 78 →
       decode_update (rid4 ++ s :: tdata) = RdRes.err (.badTupleSentinel s)) := by
  refine ⟨?_, ?_, ?_⟩
  · intro rid4 tdata rest2 rest3 s old new_t h4 hs hold hnew
    rcases hs with rfl | rfl <;>
      simp [decode_update, get_u32_append rid4 _ h4, RdRes.bind, get_u8, hold, hnew]
  · intro rid4 tdata rest2 new_t h4 hnew
    simp [decode_update, get_u32_append rid4 _ h4, RdRes.bind, get_u8, hnew]
  · intro rid4 tdata s h4 h79 h75 h78
    simp [decode_update, get_u32_append rid4 _ h4, RdRes.bind, get_u8, h79, h75, h78]

/-- C7 (witness): the `'O'` form applied to a concrete payload whose old
tuple is one Null column, followed by `'N'` and a new tuple holding
"1". -/
theorem decode_update_sentinels_witness :
    ([0, 0, 0, 41] : Bytes).length = 4 ∧
    read_tuple_data [0, 1, 110, 78, 0, 1, 116, 0, 0, 0, 1, 49] =
      RdRes.ok [none] (78 :: [0, 1, 116, 0, 0, 0, 1, 49]) ∧
    read_tuple_data [0, 1, 116, 0, 0, 0, 1, 49] = RdRes.ok [some [49]] [] ∧
    decode_update ([0, 0, 0, 41] ++ 79 :: [0, 1, 110, 78, 0, 1, 116, 0, 0, 0, 1, 49]) =
      RdRes.ok (.Update ⟨beVal [0, 0, 0, 41], some [none], [some [49]]⟩) [] :=
  ⟨rfl, rfl, rfl,
    decode_update_sentinels.1 [0, 0, 0, 41] [0, 1, 110, 78, 0, 1, 116, 0, 0, 0, 1, 49]
      [0, 1, 116, 0, 0, 0, 1, 49] [] 79 [none] [some [49]] rfl (Or.inl rfl) rfl rfl⟩

/-- C10: after an `'O'` or `'K'` old tuple, the decoder consumes the
following byte without validating it — decoding succeeds for any value
`x` of that byte, not only `'N'`, with the remaining bytes parsed as the
new TupleData. -/
theorem decode_update_unvalidated_byte
    (rid4 tdata rest2 rest3 : Bytes) (s x : Nat)
    (old new_t : List (Option Bytes))
    (h4 : rid4.length = 4) (hs : s = 79 ∨ s = 75)
    (hold : read_tuple_data tdata = RdRes.ok old (x :: rest2))
    (hnew : read_tuple_data rest2 = RdRes.ok new_t rest3) :
    decode_update (rid4 ++ s :: tdata) =
      RdRes.ok (.Update ⟨beVal rid4, some old, new_t⟩) rest3 := by
  rcases hs with rfl | rfl <;>
    simp [decode_update, get_u32_append rid4 _ h4, RdRes.bind, get_u8, hold, hnew]

/-- C10 (witness): the theorem applied with the unvalidated byte 90
(`'Z'`, not `'N'`) between the old and new tuples. -/
theorem decode_update_unvalidated_byte_witness :
    read_tuple_data [0, 0, 90, 0, 0] = RdRes.ok [] (90 :: [0, 0]) ∧
    read_tuple_data [0, 0] = RdRes.ok [] [] ∧
    decode_update ([0, 0, 0, 41] ++ 75 :: [0, 0, 90, 0, 0]) =
      RdRes.ok (.Update ⟨beVal [0, 0, 0, 41], some [], []⟩) [] :=
  ⟨rfl, rfl,
    decode_update_unvalidated_byte [0, 0, 0, 41] [0, 0, 90, 0, 0] [0, 0] [] 75 90
      [] [] rfl (Or.inr rfl) rfl rfl⟩
